import Mathlib

/-!
Verification of the tool-loading registry (`src/tools/tool_manager.py` and
`src/tools/registry.py`): providers, the declarative spec layer, and the
`ToolManager` cache with TTL expiry and per-name single-flight loading.

The Python code is shallowly embedded: dictionaries become association
lists, `time.time()` becomes an explicit integer `now` parameter (seconds; ordering and
addition are all the code uses of it),
exceptions become `Except`, and the environment visible to a physical load
(the server-config factory's yield and the transport/builder outcome)
becomes an explicit `LoadEnv` input.  Cooperative-async execution of
`get_tools_async` is modelled separately as a small-step state machine.
-/

namespace BlueFlame

/-- Tool handles are opaque to the manager; we model them as naturals. -/
abbrev Tool := Nat

/-- Decidable equality for `Except`, needed to evaluate call results on
concrete inputs. -/
instance exceptDecEq {ε α : Type} [DecidableEq ε] [DecidableEq α] :
    DecidableEq (Except ε α) := fun a b =>
  match a, b with
  | .ok x, .ok y =>
    if h : x = y then .isTrue (by rw [h]) else .isFalse (by intro hc; cases hc; exact h rfl)
  | .ok _, .error _ => .isFalse (by intro hc; cases hc)
  | .error _, .ok _ => .isFalse (by intro hc; cases hc)
  | .error x, .error y =>
    if h : x = y then .isTrue (by rw [h]) else .isFalse (by intro hc; cases hc; exact h rfl)

/-- Python exceptions visible to this core: `ToolManagerError` (configuration
errors, strict-mode transport wrapping, sync-in-loop misuse) and arbitrary
other exceptions (e.g. raised by a local builder), identified by a code. -/
inductive PyErr where
  | toolManagerError (msg : String)
  | other (code : Nat)
deriving DecidableEq

/-- Truthiness of the optional server mapping returned by a provider's
server factory: Python `not config` is true for `None` and for `{}`. -/
def configTruthy : Option (List String) → Bool
  | none => false
  | some [] => false
  | some (_ :: _) => true

/-- Outcome the environment supplies for one transport call
(`client.get_tools()`) or one local builder invocation. -/
inductive LoadOutcome where
  | ok (tools : List Tool)
  | exc (code : Nat)
deriving DecidableEq

/-- Environment visible to one execution of `_load`: what the server-config
factory yields at load time, and how the transport/builder call turns out. -/
structure LoadEnv where
  mcpConfig : Option (List String)
  outcome : LoadOutcome
deriving DecidableEq

/-- The two provider variants of `tool_manager.py`: `MCPToolProvider`
(remote, with its `raise_on_error` strict flag) and `CallableToolProvider`
(local builder). -/
inductive ProviderImpl where
  | mcp (raiseOnError : Bool)
  | callable
deriving DecidableEq

/-- `ToolProvider`: name, description, tags, optional cache TTL (seconds)
and the variant-specific fetch strategy. -/
structure ToolProvider where
  name : String
  description : String
  tags : List String
  cache_ttl : Option Int
  impl : ProviderImpl
deriving DecidableEq

/-- `MCPToolProvider._load`: evaluate the server factory; an untruthy config
means "disabled, return []"; otherwise the transport call either succeeds,
or on failure is downgraded to `[]` unless `raise_on_error` is set, in which
case it is wrapped in a `ToolManagerError`. -/
def mcpLoad (raiseOnError : Bool) (name : String) (env : LoadEnv) :
    Except PyErr (List Tool) :=
  if configTruthy env.mcpConfig = false then .ok []
  else
    match env.outcome with
    | .ok ts => .ok ts
    | .exc _ =>
      if raiseOnError then
        .error (.toolManagerError ("Failed to load tools for " ++ name))
      else .ok []

/-- `CallableToolProvider._load`: run the builder; a raised exception
propagates unmodified; a successful result is returned as a list
(`list(result or [])`, the identity on lists of tools). -/
def callableLoad (env : LoadEnv) : Except PyErr (List Tool) :=
  match env.outcome with
  | .ok ts => .ok ts
  | .exc c => .error (.other c)

/-- `ToolProvider.load`: dispatch to the variant's `_load` (the final
`list(tools)` copy is the identity on the value). -/
def ToolProvider.load (p : ToolProvider) (env : LoadEnv) : Except PyErr (List Tool) :=
  match p.impl with
  | .mcp roe => mcpLoad roe p.name env
  | .callable => callableLoad env

/-- `kind` attribute of the provider classes. -/
def ProviderImpl.kindStr : ProviderImpl → String
  | .mcp _ => "mcp"
  | .callable => "python"

/-- The read-only record returned by `ToolProvider.metadata()`. -/
structure ProviderMetadata where
  name : String
  kind : String
  description : String
  tags : List String
  cache_ttl : Option Int
deriving DecidableEq

/-- `ToolProvider.metadata()`. -/
def ToolProvider.metadata (p : ToolProvider) : ProviderMetadata :=
  ⟨p.name, p.impl.kindStr, p.description, p.tags, p.cache_ttl⟩

/-- `_CacheEntry`: the most recently loaded tools plus an absolute expiry
instant (or none = never expires). -/
structure _CacheEntry where
  tools : List Tool
  expires_at : Option Int
deriving DecidableEq

/-- `_CacheEntry.valid`: `self.expires_at is None or self.expires_at > time.time()`. -/
def _CacheEntry.valid (e : _CacheEntry) (now : Int) : Bool :=
  match e.expires_at with
  | none => true
  | some t => decide (now < t)

/-- Python dict lookup on an association list. -/
def dictGet {α : Type} (d : List (String × α)) (k : String) : Option α :=
  (d.find? (fun p => p.1 = k)).map (fun p => p.2)

/-- Python dict `pop(k, None)` (also used for `del`): drop the key. -/
def dictPop {α : Type} (d : List (String × α)) (k : String) : List (String × α) :=
  d.filter (fun p => ¬ (p.1 = k))

/-- Python dict assignment `d[k] = v`. -/
def dictSet {α : Type} (d : List (String × α)) (k : String) (v : α) :
    List (String × α) :=
  (k, v) :: dictPop d k

/-- `ToolManager` state: the provider registry and the cache table (the
per-loop lock table has no sequential observable content and appears only
in the concurrency model). -/
structure ToolManager where
  providers : List (String × ToolProvider)
  cache : List (String × _CacheEntry)
deriving DecidableEq

/-- A fresh `ToolManager()`. -/
def ToolManager.init : ToolManager := ⟨[], []⟩

/-- Result of `register_provider`: the raised error (if any) and the
manager state afterwards. -/
structure RegisterResult where
  result : Except PyErr Unit
  state : ToolManager
deriving DecidableEq

/-- `ToolManager.register_provider`: duplicate name without `override` is a
`ToolManagerError` raised before any mutation; otherwise the provider is
stored and any cache entry for the name is popped. -/
def ToolManager.register_provider (m : ToolManager) (p : ToolProvider)
    (override : Bool) : RegisterResult :=
  if (dictGet m.providers p.name).isSome && !override then
    ⟨.error (.toolManagerError ("Tool provider " ++ p.name ++ " already registered")), m⟩
  else
    ⟨.ok (), ⟨dictSet m.providers p.name p, dictPop m.cache p.name⟩⟩

/-- `ToolManager.is_registered`. -/
def ToolManager.is_registered (m : ToolManager) (name : String) : Bool :=
  (dictGet m.providers name).isSome

/-- Data returned by `ToolManager.describe`: provider metadata plus the
`cached` validity flag. -/
structure DescribeData where
  meta : ProviderMetadata
  cached : Bool
deriving DecidableEq

/-- `ToolManager.describe`: unknown name raises; otherwise metadata plus
`bool(entry and entry.valid())`. -/
def ToolManager.describe (m : ToolManager) (name : String) (now : Int) :
    Except PyErr DescribeData :=
  match dictGet m.providers name with
  | none => .error (.toolManagerError ("Unknown tool provider " ++ name))
  | some p =>
    let cached :=
      match dictGet m.cache name with
      | some e => e.valid now
      | none => false
    .ok ⟨p.metadata, cached⟩

/-- `ToolManager.clear_cache`: a truthy name pops that entry, a falsy
argument (`None` or `""`) clears the whole table.  No error path exists. -/
def ToolManager.clear_cache (m : ToolManager) (name : Option String) : ToolManager :=
  match name with
  | some n => if n = "" then { m with cache := [] } else { m with cache := dictPop m.cache n }
  | none => { m with cache := [] }

/-- The cache-hit test of `get_tools_async`:
`if not refresh and entry and entry.valid(): return entry.tools`. -/
def entryHit (refresh : Bool) (now : Int) (entry : Option _CacheEntry) :
    Option (List Tool) :=
  match entry with
  | some e => if !refresh && e.valid now then some e.tools else none
  | none => none

/-- The expiry stored on load completion:
`expires_at = (time.time() + ttl) if ttl else None` (so a `None` or zero
TTL stores no expiry). -/
def expiryFor (ttl : Option Int) (now : Int) : Option Int :=
  match ttl with
  | some t => if t = 0 then none else some (now + t)
  | none => none

/-- Result of one `get_tools` / `get_tools_async` call: the returned tools
or raised error, the manager state afterwards, and the number of physical
`provider.load()` executions the call performed (0 or 1). -/
structure CallResult where
  result : Except PyErr (List Tool)
  state : ToolManager
  loads : Nat
deriving DecidableEq

/-- `ToolManager.get_tools_async`, sequential (uncontended) semantics:
unknown name raises; a valid cache entry is returned without a load unless
`refresh` is set; otherwise the lock is taken, the cache re-checked (the
state is unchanged in between, so the re-check repeats the same miss) and
one physical load runs; a raised load error leaves the cache untouched,
a successful load replaces the entry wholesale with expiry
`expiryFor ttl now` and returns the loaded list. -/
def ToolManager.get_tools_async (m : ToolManager) (name : String)
    (refresh : Bool) (now : Int) (env : LoadEnv) : CallResult :=
  match dictGet m.providers name with
  | none => ⟨.error (.toolManagerError ("Unknown tool provider " ++ name)), m, 0⟩
  | some provider =>
    match entryHit refresh now (dictGet m.cache name) with
    | some ts => ⟨.ok ts, m, 0⟩
    | none =>
      match provider.load env with
      | .error e => ⟨.error e, m, 1⟩
      | .ok tools =>
        ⟨.ok tools,
         { m with cache := dictSet m.cache name ⟨tools, expiryFor provider.cache_ttl now⟩ },
         1⟩

/-- `ToolManager.get_tools` (synchronous entry point): with a running event
loop it raises a `ToolManagerError` before touching cache or provider;
otherwise it is `asyncio.run(self.get_tools_async(...))`. -/
def ToolManager.get_tools (m : ToolManager) (name : String) (refresh : Bool)
    (now : Int) (env : LoadEnv) (runningLoop : Bool) : CallResult :=
  if runningLoop then
    ⟨.error (.toolManagerError
      "Cannot call synchronous get_tools inside a running event loop. Use await get_tools_async."),
     m, 0⟩
  else
    m.get_tools_async name refresh now env

/-!
The declarative spec layer of `registry.py`.
-/

/-- `DashScopeMCPSpec`: static configuration for a DashScope-hosted MCP
server (the built provider keeps the default `raise_on_error = False`). -/
structure DashScopeMCPSpec where
  tool_name : String
  server_name : String
  transport : String
  description : String
  tags : List String
  cache_ttl : Option Int
deriving DecidableEq

/-- The `_servers` factory closed over by `DashScopeMCPSpec.build_provider`:
evaluated at load time, it yields `None` when `settings.dashscope_api_key`
is falsy (absent or empty) and otherwise a single-server mapping. -/
def DashScopeMCPSpec.servers (s : DashScopeMCPSpec)
    (dashscope_api_key : Option String) : Option (List String) :=
  match dashscope_api_key with
  | none => none
  | some k => if k = "" then none else some [s.server_name]

/-- `DashScopeMCPSpec.build_provider`: an `MCPToolProvider` with the spec's
name, description, extended tags and TTL, in default (non-strict) mode. -/
def DashScopeMCPSpec.build_provider (s : DashScopeMCPSpec) : ToolProvider :=
  { name := s.tool_name
    description := s.description
    tags := ["dashscope", "mcp", s.transport] ++ s.tags
    cache_ttl := s.cache_ttl
    impl := .mcp false }

/-- The module-level `_TOOL_SPECS` directory.  `build_provider` is pure, so
a spec is represented by its name together with the provider it builds. -/
abbrev SpecDir := List (String × ToolProvider)

/-- `ensure_tool_registered`: no-op when the name is already registered;
otherwise look the spec up (missing spec raises a `ToolManagerError`),
build its provider and register it. -/
def ensure_tool_registered (specs : SpecDir) (m : ToolManager) (name : String) :
    Except PyErr ToolManager :=
  if m.is_registered name then .ok m
  else
    match dictGet specs name with
    | none => .error (.toolManagerError ("No tool spec registered for " ++ name))
    | some provider =>
      match m.register_provider provider false with
      | ⟨.error e, _⟩ => .error e
      | ⟨.ok _, m2⟩ => .ok m2

/-- Module-level `registry.get_tools`: `ensure_tool_registered` then the
manager's synchronous `get_tools`. -/
def Registry.get_tools (specs : SpecDir) (m : ToolManager) (name : String)
    (refresh : Bool) (now : Int) (env : LoadEnv) (runningLoop : Bool) : CallResult :=
  match ensure_tool_registered specs m name with
  | .error e => ⟨.error e, m, 0⟩
  | .ok m2 => m2.get_tools name refresh now env runningLoop

/-!
Dictionary lemmas.
-/

theorem dictGet_nil {α : Type} (k : String) : dictGet ([] : List (String × α)) k = none := rfl

theorem dictGet_cons {α : Type} (p : String × α) (t : List (String × α)) (n : String) :
    dictGet (p :: t) n = if p.1 = n then some p.2 else dictGet t n := by
  by_cases h : p.1 = n <;> simp [dictGet, List.find?, h]

theorem dictPop_cons {α : Type} (p : String × α) (t : List (String × α)) (k : String) :
    dictPop (p :: t) k = if p.1 = k then dictPop t k else p :: dictPop t k := by
  by_cases h : p.1 = k <;> simp [dictPop, List.filter_cons, h]

theorem dictGet_pop_self {α : Type} (d : List (String × α)) (k : String) :
    dictGet (dictPop d k) k = none := by
  induction d with
  | nil => rfl
  | cons p t ih =>
    rw [dictPop_cons]
    by_cases h : p.1 = k
    · rw [if_pos h]; exact ih
    · rw [if_neg h, dictGet_cons, if_neg h]; exact ih

theorem dictGet_pop_ne {α : Type} (d : List (String × α)) (k n : String) (hne : n ≠ k) :
    dictGet (dictPop d k) n = dictGet d n := by
  induction d with
  | nil => rfl
  | cons p t ih =>
    rw [dictPop_cons, dictGet_cons]
    by_cases hk : p.1 = k
    · have hn : ¬ p.1 = n := fun h => hne (h ▸ hk)
      rw [if_pos hk, if_neg hn]; exact ih
    · rw [if_neg hk, dictGet_cons]
      by_cases hn : p.1 = n
      · rw [if_pos hn, if_pos hn]
      · rw [if_neg hn, if_neg hn]; exact ih

theorem dictGet_set_self {α : Type} (d : List (String × α)) (k : String) (v : α) :
    dictGet (dictSet d k v) k = some v := by
  rw [dictSet, dictGet_cons, if_pos rfl]

theorem dictGet_set_ne {α : Type} (d : List (String × α)) (k n : String) (v : α)
    (hne : n ≠ k) :
    dictGet (dictSet d k v) n = dictGet d n := by
  rw [dictSet, dictGet_cons, if_neg (fun h => hne h.symm)]
  exact dictGet_pop_ne d k n hne

/-!
Claim theorems.
-/

/-- C5: a remote (MCP) provider whose server/credential factory yields no
configuration at load time returns an empty list from `load()` and raises
nothing, in strict and default mode alike; and the DashScope spec's factory
indeed yields no configuration when the API key is absent or empty. -/
theorem c5_unconfigured_is_empty_not_error :
    (∀ (p : ToolProvider) (roe : Bool) (env : LoadEnv), p.impl = .mcp roe →
      configTruthy env.mcpConfig = false → p.load env = .ok []) ∧
    (∀ (s : DashScopeMCPSpec) (key : Option String) (env : LoadEnv),
      (key = none ∨ key = some "") → env.mcpConfig = s.servers key →
      s.build_provider.load env = .ok []) := by
  constructor
  · intro p roe env himpl hcfg
    simp [ToolProvider.load, himpl, mcpLoad, hcfg]
  · intro s key env hkey hcfg
    have hfalse : configTruthy env.mcpConfig = false := by
      rw [hcfg]
      rcases hkey with h | h <;> rw [h] <;> simp [DashScopeMCPSpec.servers, configTruthy]
    simp [DashScopeMCPSpec.build_provider, ToolProvider.load, mcpLoad, hfalse]

/-- C5 witness: the `weather` DashScope spec with the API key absent loads
to the empty list. -/
theorem c5_unconfigured_is_empty_not_error_witness :
    (⟨"weather", "weather", "sse", "desc", [], none⟩ :
        DashScopeMCPSpec).build_provider.load ⟨none, .exc 3⟩ = .ok [] :=
  c5_unconfigured_is_empty_not_error.2
    ⟨"weather", "weather", "sse", "desc", [], none⟩ none ⟨none, .exc 3⟩
    (Or.inl rfl) rfl

/-- C6: a remote (MCP) provider whose transport call fails during a
configured load raises the wrapped `ToolManagerError` in strict mode and
returns an empty list in default mode. -/
theorem c6_transport_failure_strict_vs_default
    (p : ToolProvider) (env : LoadEnv) (c : Nat)
    (hcfg : configTruthy env.mcpConfig = true) (hexc : env.outcome = .exc c) :
    (p.impl = .mcp true →
      p.load env = .error (.toolManagerError ("Failed to load tools for " ++ p.name))) ∧
    (p.impl = .mcp false → p.load env = .ok []) := by
  constructor <;> intro himpl <;>
    simp [ToolProvider.load, himpl, mcpLoad, hcfg, hexc]

/-- C6 witness: a configured strict provider raises on a transport
exception; the same provider in default mode returns `[]`. -/
theorem c6_transport_failure_strict_vs_default_witness :
    (⟨"r", "", [], none, .mcp true⟩ : ToolProvider).load ⟨some ["s"], .exc 3⟩ =
      .error (.toolManagerError "Failed to load tools for r") ∧
    (⟨"r", "", [], none, .mcp false⟩ : ToolProvider).load ⟨some ["s"], .exc 3⟩ = .ok [] :=
  ⟨(c6_transport_failure_strict_vs_default ⟨"r", "", [], none, .mcp true⟩
      ⟨some ["s"], .exc 3⟩ 3 rfl rfl).1 rfl,
   (c6_transport_failure_strict_vs_default ⟨"r", "", [], none, .mcp false⟩
      ⟨some ["s"], .exc 3⟩ 3 rfl rfl).2 rfl⟩

/-- C7: `register_provider` on an already-registered name with
`override = false` raises a `ToolManagerError` and leaves registry and
cache unchanged; with `override = true` it replaces the provider and pops
that name's cache entry while leaving every other name alone; and a fresh
registration also succeeds and leaves no cache entry for the name. -/
theorem c7_register_provider_override (m : ToolManager) (p : ToolProvider) :
    ((dictGet m.providers p.name).isSome = true →
      m.register_provider p false =
        ⟨.error (.toolManagerError ("Tool provider " ++ p.name ++ " already registered")), m⟩) ∧
    ((m.register_provider p true).result = .ok () ∧
      dictGet (m.register_provider p true).state.providers p.name = some p ∧
      dictGet (m.register_provider p true).state.cache p.name = none ∧
      (∀ n, n ≠ p.name →
        dictGet (m.register_provider p true).state.providers n = dictGet m.providers n ∧
        dictGet (m.register_provider p true).state.cache n = dictGet m.cache n)) ∧
    (dictGet m.providers p.name = none →
      (m.register_provider p false).result = .ok () ∧
      dictGet (m.register_provider p false).state.providers p.name = some p ∧
      dictGet (m.register_provider p false).state.cache p.name = none) := by
  refine ⟨fun hreg => ?_, ?_, fun hfresh => ?_⟩
  · rw [ToolManager.register_provider, if_pos (by rw [hreg]; rfl)]
  · rw [ToolManager.register_provider, if_neg (by simp)]
    exact ⟨rfl, dictGet_set_self _ _ _, dictGet_pop_self _ _,
      fun n hn => ⟨dictGet_set_ne _ _ _ _ hn, dictGet_pop_ne _ _ _ hn⟩⟩
  · rw [ToolManager.register_provider, if_neg (by rw [hfresh]; simp)]
    exact ⟨rfl, dictGet_set_self _ _ _, dictGet_pop_self _ _⟩

/-- C7 witness: on a manager holding provider `loc` and a cache entry for
it, re-registering `loc` without override fails and changes nothing, while
registering with override succeeds and drops the cache entry; registering
a fresh name on an empty manager succeeds. -/
theorem c7_register_provider_override_witness :
    ((⟨[("loc", ⟨"loc", "", [], none, .callable⟩)], [("loc", ⟨[4], none⟩)]⟩ :
        ToolManager).register_provider ⟨"loc", "new", [], none, .callable⟩ false =
      ⟨.error (.toolManagerError "Tool provider loc already registered"),
       ⟨[("loc", ⟨"loc", "", [], none, .callable⟩)], [("loc", ⟨[4], none⟩)]⟩⟩) ∧
    dictGet ((⟨[("loc", ⟨"loc", "", [], none, .callable⟩)], [("loc", ⟨[4], none⟩)]⟩ :
        ToolManager).register_provider ⟨"loc", "new", [], none, .callable⟩ true).state.cache
      "loc" = none ∧
    ((ToolManager.init.register_provider ⟨"fresh", "", [], none, .callable⟩ false).result =
      .ok ()) :=
  ⟨(c7_register_provider_override
      ⟨[("loc", ⟨"loc", "", [], none, .callable⟩)], [("loc", ⟨[4], none⟩)]⟩
      ⟨"loc", "new", [], none, .callable⟩).1 (by decide),
   (c7_register_provider_override
      ⟨[("loc", ⟨"loc", "", [], none, .callable⟩)], [("loc", ⟨[4], none⟩)]⟩
      ⟨"loc", "new", [], none, .callable⟩).2.1.2.2.1,
   ((c7_register_provider_override ToolManager.init
      ⟨"fresh", "", [], none, .callable⟩).2.2 (by decide)).1⟩

/-- Shape of a `get_tools_async` call that performed one physical load and
returned tools: the provider load succeeded with exactly those tools and
the new state holds the freshly stored cache entry. -/
theorem get_tools_async_load_ok
    (m : ToolManager) (name : String) (p : ToolProvider) (refresh : Bool)
    (now : Int) (env : LoadEnv) (ts : List Tool) (m1 : ToolManager)
    (hp : dictGet m.providers name = some p)
    (h : m.get_tools_async name refresh now env = ⟨.ok ts, m1, 1⟩) :
    p.load env = .ok ts ∧
    m1 = { m with cache := dictSet m.cache name ⟨ts, expiryFor p.cache_ttl now⟩ } := by
  simp only [ToolManager.get_tools_async, hp] at h
  cases hhit : entryHit refresh now (dictGet m.cache name) with
  | some ts0 => rw [hhit] at h; simp at h
  | none =>
    rw [hhit] at h
    cases hload : p.load env with
    | error e => rw [hload] at h; simp at h
    | ok tools =>
      rw [hload] at h
      obtain ⟨hres, hstate, -⟩ := CallResult.mk.inj h
      obtain rfl : tools = ts := Except.ok.inj hres
      exact ⟨rfl, hstate.symm⟩

/-- C2: for a registered provider without a TTL, once one call has
completed a physical load, any later `get_tools_async` call without refresh
returns the identical cached list with no further load and leaves the
state untouched, at every later instant (the entry never expires). -/
theorem c2_no_ttl_never_expires
    (m : ToolManager) (name : String) (p : ToolProvider)
    (hp : dictGet m.providers name = some p) (httl : p.cache_ttl = none)
    (r1 : Bool) (now1 : Int) (env1 : LoadEnv) (ts : List Tool) (m1 : ToolManager)
    (h1 : m.get_tools_async name r1 now1 env1 = ⟨.ok ts, m1, 1⟩)
    (now2 : Int) (env2 : LoadEnv) :
    m1.get_tools_async name false now2 env2 = ⟨.ok ts, m1, 0⟩ := by
  obtain ⟨hload, hm1⟩ := get_tools_async_load_ok m name p r1 now1 env1 ts m1 hp h1
  subst hm1
  have hexp : expiryFor p.cache_ttl now1 = none := by rw [httl]; rfl
  rw [hexp]
  simp [ToolManager.get_tools_async, hp, dictGet_set_self, entryHit, _CacheEntry.valid]

/-- C2 witness: a callable provider with no TTL loads `[4, 5]` once; a
second call at a much later instant returns the cached list with zero
loads. -/
theorem c2_no_ttl_never_expires_witness :
    ((⟨[("loc", ⟨"loc", "", [], none, .callable⟩)], []⟩ : ToolManager).get_tools_async
        "loc" false 0 ⟨none, .ok [4, 5]⟩).state.get_tools_async "loc" false 1000000
        ⟨none, .exc 9⟩ =
      ⟨.ok [4, 5],
       ((⟨[("loc", ⟨"loc", "", [], none, .callable⟩)], []⟩ : ToolManager).get_tools_async
          "loc" false 0 ⟨none, .ok [4, 5]⟩).state, 0⟩ :=
  c2_no_ttl_never_expires
    ⟨[("loc", ⟨"loc", "", [], none, .callable⟩)], []⟩ "loc"
    ⟨"loc", "", [], none, .callable⟩ (by decide) rfl
    false 0 ⟨none, .ok [4, 5]⟩ [4, 5] _ (by decide) 1000000 ⟨none, .exc 9⟩

/-- C3: for a registered provider with TTL `t > 0`, after a completed load
at instant `now0`, a refresh-free call strictly before `now0 + t` returns
the cached list with no load, and a call strictly after `now0 + t`
performs exactly one physical reload. -/
theorem c3_ttl_expiry_reload
    (m : ToolManager) (name : String) (p : ToolProvider) (t : Int)
    (hp : dictGet m.providers name = some p) (httl : p.cache_ttl = some t)
    (ht : 0 < t)
    (r1 : Bool) (now0 : Int) (env1 : LoadEnv) (ts : List Tool) (m1 : ToolManager)
    (h1 : m.get_tools_async name r1 now0 env1 = ⟨.ok ts, m1, 1⟩) :
    (∀ now1 env, now1 - now0 < t →
      m1.get_tools_async name false now1 env = ⟨.ok ts, m1, 0⟩) ∧
    (∀ now2 env, t < now2 - now0 →
      (m1.get_tools_async name false now2 env).loads = 1) := by
  obtain ⟨hload, hm1⟩ := get_tools_async_load_ok m name p r1 now0 env1 ts m1 hp h1
  subst hm1
  have hexp : expiryFor p.cache_ttl now0 = some (now0 + t) := by
    rw [httl, expiryFor]
    exact if_neg (by omega)
  rw [hexp]
  constructor
  · intro now1 env hlt
    have hvalid : (⟨ts, some (now0 + t)⟩ : _CacheEntry).valid now1 = true := by
      simp only [_CacheEntry.valid, decide_eq_true_eq]
      omega
    simp only [ToolManager.get_tools_async, hp, dictGet_set_self, entryHit, hvalid,
      Bool.not_false, Bool.true_and, if_pos]
  · intro now2 env hgt
    have hinvalid : (⟨ts, some (now0 + t)⟩ : _CacheEntry).valid now2 = false := by
      simp only [_CacheEntry.valid, decide_eq_false_iff_not]
      omega
    simp only [ToolManager.get_tools_async, hp, dictGet_set_self, entryHit, hinvalid,
      Bool.not_false, Bool.true_and, Bool.and_false, if_false]
    cases hl2 : p.load env <;> rfl

/-- C3 witness: with TTL 10 and a load completed at instant 0, a call at
instant 9 is served from cache with zero loads, and a call at instant 11
performs exactly one reload. -/
theorem c3_ttl_expiry_reload_witness :
    (((⟨[("t", ⟨"t", "", [], some 10, .callable⟩)], []⟩ : ToolManager).get_tools_async
        "t" false 0 ⟨none, .ok [4, 5]⟩).state.get_tools_async "t" false 9 ⟨none, .exc 9⟩ =
      ⟨.ok [4, 5],
       ((⟨[("t", ⟨"t", "", [], some 10, .callable⟩)], []⟩ : ToolManager).get_tools_async
          "t" false 0 ⟨none, .ok [4, 5]⟩).state, 0⟩) ∧
    ((((⟨[("t", ⟨"t", "", [], some 10, .callable⟩)], []⟩ : ToolManager).get_tools_async
        "t" false 0 ⟨none, .ok [4, 5]⟩).state.get_tools_async "t" false 11
        ⟨none, .ok [7]⟩).loads = 1) :=
  ⟨(c3_ttl_expiry_reload ⟨[("t", ⟨"t", "", [], some 10, .callable⟩)], []⟩ "t"
      ⟨"t", "", [], some 10, .callable⟩ 10 (by decide) rfl (by decide)
      false 0 ⟨none, .ok [4, 5]⟩ [4, 5] _ (by decide)).1 9 ⟨none, .exc 9⟩ (by decide),
   (c3_ttl_expiry_reload ⟨[("t", ⟨"t", "", [], some 10, .callable⟩)], []⟩ "t"
      ⟨"t", "", [], some 10, .callable⟩ 10 (by decide) rfl (by decide)
      false 0 ⟨none, .ok [4, 5]⟩ [4, 5] _ (by decide)).2 11 ⟨none, .ok [7]⟩ (by decide)⟩

/-- C8: when a registered local (callable) provider's builder raises and
the cache cannot serve the call, `get_tools` raises the very same
exception, performs the single failed load, and leaves the manager state
(including every prior cache entry) completely unchanged. -/
theorem c8_builder_error_propagates
    (m : ToolManager) (name : String) (p : ToolProvider) (c : Nat)
    (refresh : Bool) (now : Int) (env : LoadEnv)
    (hp : dictGet m.providers name = some p) (himpl : p.impl = .callable)
    (hexc : env.outcome = .exc c)
    (hmiss : entryHit refresh now (dictGet m.cache name) = none) :
    m.get_tools name refresh now env false = ⟨.error (.other c), m, 1⟩ := by
  have hload : p.load env = .error (.other c) := by
    simp [ToolProvider.load, himpl, callableLoad, hexc]
  simp only [ToolManager.get_tools, Bool.false_eq_true, if_false,
    ToolManager.get_tools_async, hp, hmiss, hload]

/-- C8 witness: a raising builder surfaces its exception unchanged while a
prior (stale-free) cache entry for the name survives in the state. -/
theorem c8_builder_error_propagates_witness :
    (⟨[("loc", ⟨"loc", "", [], none, .callable⟩)],
      [("loc", ⟨[4], none⟩)]⟩ : ToolManager).get_tools "loc" true 0 ⟨none, .exc 9⟩ false =
      ⟨.error (.other 9),
       ⟨[("loc", ⟨"loc", "", [], none, .callable⟩)], [("loc", ⟨[4], none⟩)]⟩, 1⟩ :=
  c8_builder_error_propagates
    ⟨[("loc", ⟨"loc", "", [], none, .callable⟩)], [("loc", ⟨[4], none⟩)]⟩
    "loc" ⟨"loc", "", [], none, .callable⟩ 9 true 0 ⟨none, .exc 9⟩
    (by decide) rfl rfl (by decide)

/-- C10: a registered provider with `cache_ttl = 0` stores, after a
successful load, a cache entry with no expiry instant, and that entry is
served (with zero further loads) at arbitrarily late instants — a zero TTL
behaves as "never expires", exactly like a TTL of `None`. -/
theorem c10_zero_ttl_never_expires
    (m : ToolManager) (name : String) (p : ToolProvider)
    (refresh : Bool) (now : Int) (env : LoadEnv) (ts : List Tool)
    (hp : dictGet m.providers name = some p) (httl : p.cache_ttl = some 0)
    (hmiss : entryHit refresh now (dictGet m.cache name) = none)
    (hload : p.load env = .ok ts) :
    m.get_tools_async name refresh now env =
      ⟨.ok ts, { m with cache := dictSet m.cache name ⟨ts, none⟩ }, 1⟩ ∧
    (∀ now2 env2,
      ({ m with cache := dictSet m.cache name ⟨ts, none⟩ } : ToolManager).get_tools_async
          name false now2 env2 =
        ⟨.ok ts, { m with cache := dictSet m.cache name ⟨ts, none⟩ }, 0⟩) := by
  have hexp : expiryFor p.cache_ttl now = none := by rw [httl]; rfl
  constructor
  · simp only [ToolManager.get_tools_async, hp, hmiss, hload, hexp]
  · intro now2 env2
    simp [ToolManager.get_tools_async, hp, dictGet_set_self, entryHit, _CacheEntry.valid]

/-- C10 witness: with TTL 0 the stored entry carries no expiry and is still
served a million seconds later with zero loads. -/
theorem c10_zero_ttl_never_expires_witness :
    ((⟨[("z", ⟨"z", "", [], some 0, .callable⟩)], []⟩ : ToolManager).get_tools_async
        "z" false 0 ⟨none, .ok [4, 5]⟩ =
      ⟨.ok [4, 5],
       ⟨[("z", ⟨"z", "", [], some 0, .callable⟩)], [("z", ⟨[4, 5], none⟩)]⟩, 1⟩) ∧
    ((⟨[("z", ⟨"z", "", [], some 0, .callable⟩)],
        [("z", ⟨[4, 5], none⟩)]⟩ : ToolManager).get_tools_async "z" false 1000000
        ⟨none, .exc 9⟩ =
      ⟨.ok [4, 5],
       ⟨[("z", ⟨"z", "", [], some 0, .callable⟩)], [("z", ⟨[4, 5], none⟩)]⟩, 0⟩) :=
  ⟨(c10_zero_ttl_never_expires ⟨[("z", ⟨"z", "", [], some 0, .callable⟩)], []⟩ "z"
      ⟨"z", "", [], some 0, .callable⟩ false 0 ⟨none, .ok [4, 5]⟩ [4, 5]
      (by decide) rfl (by decide) (by decide)).1,
   (c10_zero_ttl_never_expires ⟨[("z", ⟨"z", "", [], some 0, .callable⟩)], []⟩ "z"
      ⟨"z", "", [], some 0, .callable⟩ false 0 ⟨none, .ok [4, 5]⟩ [4, 5]
      (by decide) rfl (by decide) (by decide)).2 1000000 ⟨none, .exc 9⟩⟩

/-- C4 counterexample: `clear_cache` on a name with no registered provider
does not raise — it completes normally and returns the manager unchanged —
so "every manager operation raises ConfigurationError for an unknown name"
is false as stated (the operation has no error path at all). -/
theorem c4_counterexample_clear_cache_no_raise :
    ToolManager.init.is_registered "ghost" = false ∧
    ToolManager.init.clear_cache (some "ghost") = ToolManager.init := by decide

/-- C4 (amended): for a name with no registered provider, `get_tools_async`,
the synchronous `get_tools`, and `describe` raise a `ToolManagerError`, and
the registry path (`ensure_tool_registered` and the module-level
`get_tools`) raises when no spec matches either; `clear_cache`, however,
silently removes nothing and returns normally. -/
theorem c4_amended_unknown_name_errors
    (m : ToolManager) (specs : SpecDir) (name : String)
    (refresh : Bool) (now : Int) (env : LoadEnv)
    (hp : dictGet m.providers name = none) :
    (m.get_tools_async name refresh now env =
      ⟨.error (.toolManagerError ("Unknown tool provider " ++ name)), m, 0⟩) ∧
    (m.get_tools name refresh now env false =
      ⟨.error (.toolManagerError ("Unknown tool provider " ++ name)), m, 0⟩) ∧
    (m.describe name now = .error (.toolManagerError ("Unknown tool provider " ++ name))) ∧
    (dictGet specs name = none →
      ensure_tool_registered specs m name =
        .error (.toolManagerError ("No tool spec registered for " ++ name)) ∧
      Registry.get_tools specs m name refresh now env false =
        ⟨.error (.toolManagerError ("No tool spec registered for " ++ name)), m, 0⟩) ∧
    (name ≠ "" →
      m.clear_cache (some name) = { m with cache := dictPop m.cache name } ∧
      ∀ n, n ≠ name → dictGet (m.clear_cache (some name)).cache n = dictGet m.cache n) := by
  have hasync : m.get_tools_async name refresh now env =
      ⟨.error (.toolManagerError ("Unknown tool provider " ++ name)), m, 0⟩ := by
    simp only [ToolManager.get_tools_async, hp]
  have hens : ∀ hs : dictGet specs name = none,
      ensure_tool_registered specs m name =
        .error (.toolManagerError ("No tool spec registered for " ++ name)) := by
    intro hs
    simp only [ensure_tool_registered, ToolManager.is_registered, hp, Option.isSome_none,
      Bool.false_eq_true, if_false, hs]
  refine ⟨hasync, ?_, ?_, fun hs => ⟨hens hs, ?_⟩, fun hempty => ⟨?_, ?_⟩⟩
  · simp only [ToolManager.get_tools, Bool.false_eq_true, if_false]
    exact hasync
  · simp only [ToolManager.describe, hp]
  · simp only [Registry.get_tools, hens hs]
  · simp [ToolManager.clear_cache, hempty]
  · intro n hn
    simp only [ToolManager.clear_cache, if_neg hempty]
    exact dictGet_pop_ne m.cache name n hn

/-- C4 witness: on an empty manager and empty spec directory, every lookup
path for the unregistered name `ghost` raises, and `clear_cache` returns
the unchanged manager. -/
theorem c4_amended_unknown_name_errors_witness :
    ToolManager.init.get_tools_async "ghost" false 0 ⟨none, .ok []⟩ =
      ⟨.error (.toolManagerError "Unknown tool provider ghost"), ToolManager.init, 0⟩ ∧
    ensure_tool_registered [] ToolManager.init "ghost" =
      .error (.toolManagerError "No tool spec registered for ghost") :=
  ⟨(c4_amended_unknown_name_errors ToolManager.init [] "ghost" false 0
      ⟨none, .ok []⟩ rfl).1,
   ((c4_amended_unknown_name_errors ToolManager.init [] "ghost" false 0
      ⟨none, .ok []⟩ rfl).2.2.2.1 rfl).1⟩

/-- C9: the synchronous `get_tools` entry point raises a `ToolManagerError`
immediately when invoked inside a running event loop, touching neither the
cache nor the provider (state unchanged, zero loads); outside a running
loop it behaves exactly as `get_tools_async`. -/
theorem c9_sync_entry_fails_fast_in_loop (m : ToolManager) (name : String)
    (refresh : Bool) (now : Int) (env : LoadEnv) :
    m.get_tools name refresh now env true =
      ⟨.error (.toolManagerError
        "Cannot call synchronous get_tools inside a running event loop. Use await get_tools_async."),
       m, 0⟩ ∧
    m.get_tools name refresh now env false = m.get_tools_async name refresh now env :=
  ⟨rfl, rfl⟩

/-!
Cooperative-concurrency model of `get_tools_async` for one capability name.

The event loop is single-threaded: a task runs atomically between await
points.  The await points of `get_tools_async` are the per-name
`asyncio.Lock` acquisition and the `provider.load()` call.  A step picks a
runnable task and executes its next atomic segment.  `asyncio.Lock` wakes
waiters in FIFO order; the model lets any waiter (or newcomer) acquire a
free lock, a superset of the real schedules, so universally quantified
results cover the real behavior, and the exhibited traces below use only
FIFO-realizable schedules.
-/

/-- Fixed parameters of one concurrent scenario: the `refresh` flag shared
by the callers, the (single) current instant, the provider's TTL, and the
outcome the environment gives to the n-th physical load. -/
structure CParams where
  refresh : Bool
  now : Int
  ttl : Option Int
  outcomes : Nat → Except PyErr (List Tool)

/-- Status of one task running `get_tools_async`: not yet scheduled, parked
on the per-name lock, awaiting physical load number `idx`, or finished with
a result (returned list or raised error). -/
inductive TStatus where
  | notStarted
  | waitingLock
  | loading (idx : Nat)
  | done (r : Except PyErr (List Tool))
deriving DecidableEq

/-- Shared state of the scenario: the cache entry for the name, whether the
per-name lock is held, the task statuses, and how many physical loads have
been started. -/
structure CState where
  cache : Option _CacheEntry
  lockHeld : Bool
  tasks : List TStatus
  loadCount : Nat
deriving DecidableEq

/-- One atomic segment of task `i` (following the source line by line):
a fresh task checks the cache and either returns the valid entry, parks on
the held lock, or acquires the free lock — re-checking the cache under it,
unchanged in the same atomic segment — and starts the physical load; a
parked task can resume only when the lock is free, re-checks, and returns
or loads; a loading task completes with the environment's outcome — on
success it stores the entry (expiry from the provider TTL), on error it
stores nothing; either way the lock is released (`async with` releases on
exceptions too) and the task finishes with the load's outcome. -/
def stepTask (P : CParams) (s : CState) (i : Nat) : Option CState :=
  match s.tasks[i]? with
  | none => none
  | some .notStarted =>
    match entryHit P.refresh P.now s.cache with
    | some ts => some { s with tasks := s.tasks.set i (.done (.ok ts)) }
    | none =>
      if s.lockHeld then
        some { s with tasks := s.tasks.set i .waitingLock }
      else
        some { s with lockHeld := true,
                      tasks := s.tasks.set i (.loading s.loadCount),
                      loadCount := s.loadCount + 1 }
  | some .waitingLock =>
    if s.lockHeld then none
    else
      match entryHit P.refresh P.now s.cache with
      | some ts => some { s with tasks := s.tasks.set i (.done (.ok ts)) }
      | none =>
        some { s with lockHeld := true,
                      tasks := s.tasks.set i (.loading s.loadCount),
                      loadCount := s.loadCount + 1 }
  | some (.loading idx) =>
    match P.outcomes idx with
    | .ok ts =>
      some { s with cache := some ⟨ts, expiryFor P.ttl P.now⟩,
                    lockHeld := false,
                    tasks := s.tasks.set i (.done (.ok ts)) }
    | .error e =>
      some { s with lockHeld := false,
                    tasks := s.tasks.set i (.done (.error e)) }
  | some (.done _) => none

/-- One scheduler step: some task advances. -/
def CStep (P : CParams) (s s2 : CState) : Prop :=
  ∃ i, stepTask P s i = some s2

/-- Reachability under the cooperative scheduler. -/
def CReach (P : CParams) : CState → CState → Prop :=
  Relation.ReflTransGen (CStep P)

/-- Initial state of the claimed scenario: `K` concurrent callers of the
same uncached name. -/
def initState (K : Nat) : CState :=
  ⟨none, false, List.replicate K .notStarted, 0⟩

/-- The cache entry a successful load with result `ts` stores. -/
def goodEntry (P : CParams) (ts : List Tool) : _CacheEntry :=
  ⟨ts, expiryFor P.ttl P.now⟩

/-- A non-pathological TTL: absent or nonnegative. -/
def ttlOk : Option Int → Prop
  | none => True
  | some t => 0 ≤ t

theorem goodEntry_hit (P : CParams) (ts : List Tool)
    (hrefresh : P.refresh = false) (httl : ttlOk P.ttl) :
    entryHit P.refresh P.now (some (goodEntry P ts)) = some ts := by
  have hv : (⟨ts, expiryFor P.ttl P.now⟩ : _CacheEntry).valid P.now = true := by
    cases ht : P.ttl with
    | none => simp [_CacheEntry.valid, expiryFor, ht]
    | some t =>
      have h0 : (0 : Int) ≤ t := by rw [ht] at httl; exact httl
      by_cases hz : t = 0
      · simp [_CacheEntry.valid, expiryFor, ht, hz]
      · simp only [_CacheEntry.valid, expiryFor, ht, if_neg hz, decide_eq_true_eq]
        omega
  rw [hrefresh]
  simp [entryHit, goodEntry, hv]

/-- Case analysis for lookups in a `List.set` result. -/
theorem getElem?_set_cases {α : Type} {l : List α} {i j : Nat} {a x : α}
    (h : (l.set i a)[j]? = some x) : (i = j ∧ x = a) ∨ (i ≠ j ∧ l[j]? = some x) := by
  by_cases hij : i = j
  · subst hij
    by_cases hlen : i < l.length
    · rw [List.getElem?_set_eq_of_lt a hlen] at h
      exact Or.inl ⟨rfl, (Option.some.inj h).symm⟩
    · rw [List.getElem?_eq_none (by simpa using Nat.not_lt.mp hlen)] at h
      exact absurd h (by simp)
  · rw [List.getElem?_set_ne hij] at h
    exact Or.inr ⟨hij, h⟩

/-- Invariant preserved by every step of the scenario when the callers do
not force a refresh, the TTL is not negative, and the first physical load
succeeds with `ts`: at most one load ever starts, a task in `loading`
holds the lock with an empty cache, the cache only ever holds the entry
the successful load stores, and every finished task returned `ts`. -/
structure CInv (P : CParams) (ts : List Tool) (s : CState) : Prop where
  cacheOk : s.cache = none ∨ s.cache = some (goodEntry P ts)
  countLe : s.loadCount ≤ 1
  cacheCount : s.cache ≠ none → s.loadCount = 1
  doneOk : ∀ (i : Nat) (r : Except PyErr (List Tool)),
    s.tasks[i]? = some (TStatus.done r) → r = .ok ts ∧ s.cache ≠ none
  loadingZero : ∀ (i idx : Nat), s.tasks[i]? = some (TStatus.loading idx) →
    idx = 0 ∧ s.lockHeld = true ∧ s.cache = none ∧ s.loadCount = 1
  loadingUniq : ∀ (i j idx jdx : Nat), s.tasks[i]? = some (TStatus.loading idx) →
    s.tasks[j]? = some (TStatus.loading jdx) → i = j
  lockLoading : s.lockHeld = true → ∃ i : Nat, s.tasks[i]? = some (TStatus.loading 0)
  countOne : s.loadCount = 1 → s.lockHeld = true ∨ s.cache ≠ none

theorem cinv_init (P : CParams) (ts : List Tool) (K : Nat) :
    CInv P ts (initState K) := by
  have hrep : ∀ (j : Nat) (st : TStatus),
      (List.replicate K TStatus.notStarted)[j]? = some st → st = .notStarted := by
    intro j st h
    rw [List.getElem?_replicate] at h
    by_cases hj : j < K
    · rw [if_pos hj] at h; exact (Option.some.inj h).symm
    · rw [if_neg hj] at h; exact absurd h (by simp)
  refine ⟨Or.inl rfl, Nat.zero_le 1, fun h => absurd rfl h, ?_, ?_, ?_, ?_, ?_⟩
  · intro i r h; exact absurd (hrep i _ h) (by simp)
  · intro i idx h; exact absurd (hrep i _ h) (by simp)
  · intro i j idx jdx hi hj; exact absurd (hrep i _ hi) (by simp)
  · intro h; exact absurd h (by simp [initState])
  · intro h; exact absurd h (by simp [initState])

theorem cinv_step_hit (P : CParams) (ts : List Tool)
    (hrefresh : P.refresh = false) (httl : ttlOk P.ttl)
    {s : CState} (inv : CInv P ts s) (i : Nat) {ts2 : List Tool}
    (hhit : entryHit P.refresh P.now s.cache = some ts2) :
    CInv P ts { s with tasks := s.tasks.set i (.done (.ok ts2)) } := by
  have hcache : s.cache = some (goodEntry P ts) := by
    rcases inv.cacheOk with h | h
    · rw [h] at hhit; exact Option.noConfusion hhit
    · exact h
  have hts2 : ts = ts2 := by
    rw [hcache, goodEntry_hit P ts hrefresh httl] at hhit
    exact Option.some.inj hhit
  obtain rfl := hts2
  have hcne : s.cache ≠ none := by rw [hcache]; simp
  refine ⟨inv.cacheOk, inv.countLe, inv.cacheCount, ?_, ?_, ?_, ?_, inv.countOne⟩
  · intro j r hj
    rcases getElem?_set_cases hj with ⟨_, hx⟩ | ⟨_, hold⟩
    · injection hx with hr; exact ⟨hr, hcne⟩
    · exact inv.doneOk j r hold
  · intro j idx hj
    rcases getElem?_set_cases hj with ⟨_, hx⟩ | ⟨_, hold⟩
    · exact TStatus.noConfusion hx
    · exact absurd (inv.loadingZero j idx hold).2.2.1 hcne
  · intro i1 j1 idx jdx hi1 hj1
    rcases getElem?_set_cases hi1 with ⟨_, hx1⟩ | ⟨_, hold1⟩
    · exact TStatus.noConfusion hx1
    · rcases getElem?_set_cases hj1 with ⟨_, hx2⟩ | ⟨_, hold2⟩
      · exact TStatus.noConfusion hx2
      · exact inv.loadingUniq i1 j1 idx jdx hold1 hold2
  · intro hlock
    obtain ⟨j, hj⟩ := inv.lockLoading hlock
    exact absurd (inv.loadingZero j 0 hj).2.2.1 hcne

theorem cinv_step_wait (P : CParams) (ts : List Tool)
    {s : CState} (inv : CInv P ts s) (i : Nat)
    (hti : s.tasks[i]? = some .notStarted) :
    CInv P ts { s with tasks := s.tasks.set i .waitingLock } := by
  refine ⟨inv.cacheOk, inv.countLe, inv.cacheCount, ?_, ?_, ?_, ?_, ?_⟩
  · intro j r hj
    rcases getElem?_set_cases hj with ⟨_, hx⟩ | ⟨_, hold⟩
    · exact TStatus.noConfusion hx
    · exact inv.doneOk j r hold
  · intro j idx hj
    rcases getElem?_set_cases hj with ⟨_, hx⟩ | ⟨_, hold⟩
    · exact TStatus.noConfusion hx
    · exact inv.loadingZero j idx hold
  · intro i1 j1 idx jdx hi1 hj1
    rcases getElem?_set_cases hi1 with ⟨_, hx1⟩ | ⟨_, hold1⟩
    · exact TStatus.noConfusion hx1
    · rcases getElem?_set_cases hj1 with ⟨_, hx2⟩ | ⟨_, hold2⟩
      · exact TStatus.noConfusion hx2
      · exact inv.loadingUniq i1 j1 idx jdx hold1 hold2
  · intro hl
    obtain ⟨j, hj⟩ := inv.lockLoading hl
    have hji : i ≠ j := by
      intro he; rw [← he, hti] at hj
      exact TStatus.noConfusion (Option.some.inj hj)
    refine ⟨j, ?_⟩
    rw [List.getElem?_set_ne hji]
    exact hj
  · exact inv.countOne

theorem cinv_step_start (P : CParams) (ts : List Tool)
    (hrefresh : P.refresh = false) (httl : ttlOk P.ttl)
    {s : CState} (inv : CInv P ts s) (i : Nat)
    (hbound : i < s.tasks.length)
    (hmiss : entryHit P.refresh P.now s.cache = none)
    (hlock : s.lockHeld = false) :
    CInv P ts { s with lockHeld := true,
                       tasks := s.tasks.set i (.loading s.loadCount),
                       loadCount := s.loadCount + 1 } := by
  have hcache : s.cache = none := by
    rcases inv.cacheOk with h | h
    · exact h
    · rw [h, goodEntry_hit P ts hrefresh httl] at hmiss
      exact Option.noConfusion hmiss
  have hcount : s.loadCount = 0 := by
    have hle := inv.countLe
    rcases Nat.eq_or_lt_of_le hle with h1 | h1
    · rcases inv.countOne h1 with hl | hc
      · rw [hlock] at hl; exact Bool.noConfusion hl
      · exact absurd hcache hc
    · omega
  refine ⟨Or.inl hcache, (by omega : s.loadCount + 1 ≤ 1), fun h => absurd hcache h,
    ?_, ?_, ?_, ?_, fun _ => Or.inl rfl⟩
  · intro j r hj
    rcases getElem?_set_cases hj with ⟨_, hx⟩ | ⟨_, hold⟩
    · exact TStatus.noConfusion hx
    · exact absurd hcache (inv.doneOk j r hold).2
  · intro j idx hj
    rcases getElem?_set_cases hj with ⟨_, hx⟩ | ⟨_, hold⟩
    · injection hx with hidx
      exact ⟨by omega, rfl, hcache, (by omega : s.loadCount + 1 = 1)⟩
    · have := (inv.loadingZero j idx hold).2.1
      rw [hlock] at this; exact Bool.noConfusion this
  · intro i1 j1 idx jdx hi1 hj1
    rcases getElem?_set_cases hi1 with ⟨hii1, _⟩ | ⟨_, hold1⟩
    · rcases getElem?_set_cases hj1 with ⟨hij1, _⟩ | ⟨_, hold2⟩
      · rw [← hii1, ← hij1]
      · have := (inv.loadingZero j1 jdx hold2).2.1
        rw [hlock] at this; exact Bool.noConfusion this
    · have := (inv.loadingZero i1 idx hold1).2.1
      rw [hlock] at this; exact Bool.noConfusion this
  · intro _
    refine ⟨i, ?_⟩
    rw [List.getElem?_set_eq_of_lt _ hbound, hcount]

theorem cinv_step_complete (P : CParams) (ts : List Tool)
    {s : CState} (inv : CInv P ts s) (i idx : Nat)
    (hti : s.tasks[i]? = some (.loading idx)) :
    CInv P ts { s with cache := some ⟨ts, expiryFor P.ttl P.now⟩,
                       lockHeld := false,
                       tasks := s.tasks.set i (.done (.ok ts)) } := by
  have hload := inv.loadingZero i idx hti
  refine ⟨Or.inr rfl, inv.countLe, fun _ => hload.2.2.2, ?_, ?_, ?_, ?_,
    fun _ => Or.inr (by simp)⟩
  · intro j r hj
    rcases getElem?_set_cases hj with ⟨_, hx⟩ | ⟨_, hold⟩
    · injection hx with hr; exact ⟨hr, by simp⟩
    · exact absurd (inv.doneOk j r hold).2 (by simp [hload.2.2.1])
  · intro j jdx hj
    rcases getElem?_set_cases hj with ⟨_, hx⟩ | ⟨hij, hold⟩
    · exact TStatus.noConfusion hx
    · exact absurd (inv.loadingUniq j i jdx idx hold hti).symm hij
  · intro i1 j1 idx1 jdx1 hi1 hj1
    rcases getElem?_set_cases hi1 with ⟨_, hx1⟩ | ⟨_, hold1⟩
    · exact TStatus.noConfusion hx1
    · rcases getElem?_set_cases hj1 with ⟨_, hx2⟩ | ⟨_, hold2⟩
      · exact TStatus.noConfusion hx2
      · exact inv.loadingUniq i1 j1 idx1 jdx1 hold1 hold2
  · intro h; exact Bool.noConfusion h

theorem cinv_step (P : CParams) (ts : List Tool)
    (hrefresh : P.refresh = false) (httl : ttlOk P.ttl)
    (hout : P.outcomes 0 = .ok ts)
    {s s2 : CState} (inv : CInv P ts s)
    (i : Nat) (hstep : stepTask P s i = some s2) : CInv P ts s2 := by
  cases hti : s.tasks[i]? with
  | none =>
    simp only [stepTask, hti] at hstep
    exact Option.noConfusion hstep
  | some st =>
    have hbound : i < s.tasks.length := by
      rw [List.getElem?_eq_some] at hti; exact hti.1
    cases st with
    | notStarted =>
      simp only [stepTask, hti] at hstep
      cases hhit : entryHit P.refresh P.now s.cache with
      | some ts2 =>
        rw [hhit] at hstep
        obtain rfl := Option.some.inj hstep
        exact cinv_step_hit P ts hrefresh httl inv i hhit
      | none =>
        rw [hhit] at hstep
        by_cases hlock : s.lockHeld = true
        · rw [if_pos hlock] at hstep
          obtain rfl := Option.some.inj hstep
          exact cinv_step_wait P ts inv i hti
        · rw [if_neg hlock] at hstep
          obtain rfl := Option.some.inj hstep
          exact cinv_step_start P ts hrefresh httl inv i hbound hhit
            (by simpa using hlock)
    | waitingLock =>
      simp only [stepTask, hti] at hstep
      by_cases hlock : s.lockHeld = true
      · rw [if_pos hlock] at hstep
        exact Option.noConfusion hstep
      · rw [if_neg hlock] at hstep
        cases hhit : entryHit P.refresh P.now s.cache with
        | some ts2 =>
          rw [hhit] at hstep
          obtain rfl := Option.some.inj hstep
          exact cinv_step_hit P ts hrefresh httl inv i hhit
        | none =>
          rw [hhit] at hstep
          obtain rfl := Option.some.inj hstep
          exact cinv_step_start P ts hrefresh httl inv i hbound hhit
            (by simpa using hlock)
    | loading idx =>
      simp only [stepTask, hti] at hstep
      obtain rfl : idx = 0 := (inv.loadingZero i idx hti).1
      rw [hout] at hstep
      obtain rfl := Option.some.inj hstep
      exact cinv_step_complete P ts inv i 0 hti
    | done r =>
      simp only [stepTask, hti] at hstep
      exact Option.noConfusion hstep

theorem cinv_reach (P : CParams) (ts : List Tool)
    (hrefresh : P.refresh = false) (httl : ttlOk P.ttl)
    (hout : P.outcomes 0 = .ok ts)
    {s s2 : CState} (inv : CInv P ts s) (h : CReach P s s2) : CInv P ts s2 := by
  induction h with
  | refl => exact inv
  | tail _ hstep ih =>
    obtain ⟨i, hi⟩ := hstep
    exact cinv_step P ts hrefresh httl hout ih i hi

/-- C1 (amended): when K ≥ 2 concurrent `get_tools_async` callers request
the same uncached name without forcing a refresh, the provider's TTL is
absent or nonnegative, and the single physical load succeeds with `ts`,
then in every schedule in which all callers have finished, the load
executed exactly once and every caller received the identical list `ts`. -/
theorem c1_amended_single_flight_success
    (P : CParams) (K : Nat) (hK : 2 ≤ K) (ts : List Tool)
    (hrefresh : P.refresh = false) (httl : ttlOk P.ttl)
    (hout : P.outcomes 0 = .ok ts)
    (s : CState) (hreach : CReach P (initState K) s)
    (hdone : ∀ i : Nat, i < K → ∃ r, s.tasks[i]? = some (TStatus.done r)) :
    s.loadCount = 1 ∧
    ∀ (i : Nat) (r : Except PyErr (List Tool)),
      s.tasks[i]? = some (TStatus.done r) → r = .ok ts := by
  have inv := cinv_reach P ts hrefresh httl hout (cinv_init P ts K) hreach
  obtain ⟨r0, hr0⟩ := hdone 0 (by omega)
  exact ⟨inv.cacheCount (inv.doneOk 0 r0 hr0).2,
    fun i r h => (inv.doneOk i r h).1⟩

/-- Scenario parameters of the C1 counterexample: two callers, no refresh,
no TTL, first physical load raises, second succeeds. -/
def cexParams : CParams :=
  ⟨false, 0, none, fun i => if i = 0 then .error (.other 7) else .ok [5]⟩

/-- C1 counterexample: two concurrent callers of the same uncached name
(with `refresh = false`) whose first physical load raises.  In the
FIFO-realizable schedule below both callers finish, the provider's load
executed twice (not once), and the callers observed different outcomes
(one error, one success) — refuting, at this concrete input, both "the
load executes exactly once" and "all K callers receive the identical
result or identical error". -/
theorem c1_counterexample_error_breaks_single_flight :
    CReach cexParams (initState 2)
      ⟨some ⟨[5], none⟩, false,
       [.done (.error (.other 7)), .done (.ok [5])], 2⟩ ∧
    (2 : Nat) ≠ 1 ∧
    (Except.error (.other 7) : Except PyErr (List Tool)) ≠ .ok [5] := by
  refine ⟨?_, by omega, by simp⟩
  have h1 : CStep cexParams (initState 2)
      ⟨none, true, [.loading 0, .notStarted], 1⟩ := ⟨0, by decide⟩
  have h2 : CStep cexParams ⟨none, true, [.loading 0, .notStarted], 1⟩
      ⟨none, true, [.loading 0, .waitingLock], 1⟩ := ⟨1, by decide⟩
  have h3 : CStep cexParams ⟨none, true, [.loading 0, .waitingLock], 1⟩
      ⟨none, false, [.done (.error (.other 7)), .waitingLock], 1⟩ := ⟨0, by decide⟩
  have h4 : CStep cexParams ⟨none, false, [.done (.error (.other 7)), .waitingLock], 1⟩
      ⟨none, true, [.done (.error (.other 7)), .loading 1], 2⟩ := ⟨1, by decide⟩
  have h5 : CStep cexParams ⟨none, true, [.done (.error (.other 7)), .loading 1], 2⟩
      ⟨some ⟨[5], none⟩, false, [.done (.error (.other 7)), .done (.ok [5])], 2⟩ :=
    ⟨1, by decide⟩
  exact .head h1 (.head h2 (.head h3 (.head h4 (.head h5 .refl))))

/-- Scenario parameters of the C1 witness: every physical load succeeds
with `[5]`. -/
def okParams : CParams := ⟨false, 0, none, fun _ => .ok [5]⟩

theorem okParams_reach :
    CReach okParams (initState 2)
      ⟨some ⟨[5], none⟩, false, [.done (.ok [5]), .done (.ok [5])], 1⟩ := by
  have h1 : CStep okParams (initState 2)
      ⟨none, true, [.loading 0, .notStarted], 1⟩ := ⟨0, by decide⟩
  have h2 : CStep okParams ⟨none, true, [.loading 0, .notStarted], 1⟩
      ⟨none, true, [.loading 0, .waitingLock], 1⟩ := ⟨1, by decide⟩
  have h3 : CStep okParams ⟨none, true, [.loading 0, .waitingLock], 1⟩
      ⟨some ⟨[5], none⟩, false, [.done (.ok [5]), .waitingLock], 1⟩ := ⟨0, by decide⟩
  have h4 : CStep okParams ⟨some ⟨[5], none⟩, false, [.done (.ok [5]), .waitingLock], 1⟩
      ⟨some ⟨[5], none⟩, false, [.done (.ok [5]), .done (.ok [5])], 1⟩ := ⟨1, by decide⟩
  exact .head h1 (.head h2 (.head h3 (.head h4 .refl)))

/-- C1 witness: in a concrete two-caller schedule whose single load
succeeds, the amended theorem yields that the load executed exactly once. -/
theorem c1_amended_single_flight_success_witness :
    (⟨some ⟨[5], none⟩, false, [.done (.ok [5]), .done (.ok [5])], 1⟩ :
      CState).loadCount = 1 :=
  (c1_amended_single_flight_success okParams 2 (by omega) [5] rfl trivial rfl
    ⟨some ⟨[5], none⟩, false, [.done (.ok [5]), .done (.ok [5])], 1⟩
    okParams_reach
    (by intro i hi
        interval_cases i
        · exact ⟨.ok [5], by decide⟩
        · exact ⟨.ok [5], by decide⟩)).1

end BlueFlame
